import Mathlib

/-!
Verification of the policy-aspect engine of the summit-milan-2025 repository.

The embedded code is `src/infra/lib/aspects/compliance-aspect.ts`:
`DocumentationAspect` (the Tag Policy: `visit`, `hasTag`, `getResourceTags`)
and `ComplianceAspect` (which configures `AwsSolutionsChecks` and forwards
suppressions to the external cdk-nag library).
-/

/-- Severity of a diagnostic emitted via `addError` / `addWarning`. -/
inductive Severity where
  | warning
  | error
deriving DecidableEq, Repr

/-- The tag manager reached by reflection: its internal `tags` field is
`none` when the field is falsy, otherwise the key-value record whose keys
`Object.keys` enumerates. -/
structure TagManager where
  tags : Option (List (String × String))
deriving DecidableEq, Repr

/-- A construct-tree node as seen by `DocumentationAspect.visit`:
whether it is a `CfnResource`, its `cfnResourceType`, its `node.path`,
and the tag manager returned by reflection (`none` models `undefined`). -/
structure CNode where
  isCfnResource : Bool
  cfnResourceType : String
  path : String
  tags : Option TagManager
deriving DecidableEq, Repr

/-- Configuration of `DocumentationAspect`. -/
structure DocumentationAspectProps where
  requiredTags : List String
  strict : Bool
  excludeResourceTypes : List String
deriving DecidableEq, Repr

/-- A diagnostic added to a node (`addError` when strict, else `addWarning`). -/
structure Diagnostic where
  severity : Severity
  message : String
deriving DecidableEq, Repr

/-- The hard-coded list of non-taggable resource types in `visit`. -/
def nonTaggableResources : List String :=
  ["AWS::CloudFormation::Output", "AWS::CDK::Metadata", "Custom::CDKBucketDeployment"]

/-- `DocumentationAspect.getResourceTags`: reflection access `(resource as any).tags`. -/
def getResourceTags (resource : CNode) : Option TagManager :=
  resource.tags

/-- `DocumentationAspect.hasTag`: false when the manager or its internal
`tags` field is falsy, otherwise `Object.keys(tagsField).includes(tagKey)`. -/
def hasTag (tags : Option TagManager) (tagKey : String) : Bool :=
  match tags with
  | none => false
  | some tm =>
    match tm.tags with
    | none => false
    | some tagsField => (tagsField.map Prod.fst).contains tagKey

/-- The `missingTags` accumulation loop of `visit`: for each required tag,
in configuration order, push it when `hasTag` fails. -/
def missingTagsOf (a : DocumentationAspectProps) (node : CNode) : List String :=
  a.requiredTags.foldl
    (fun acc rt => if hasTag (getResourceTags node) rt then acc else acc ++ [rt]) []

/-- The single-quote character used by the message template. -/
def quoteMark : String := String.singleton (Char.ofNat 39)

/-- The message template of `visit` (backtick template literal in the source). -/
def buildMessage (resourceId : String) (resourceType : String)
    (missingTags : List String) : String :=
  "Risorsa " ++ quoteMark ++ resourceId ++ quoteMark ++ " (" ++ resourceType ++
    ") manca dei seguenti tag di documentazione: " ++ String.intercalate ", " missingTags

/-- `DocumentationAspect.visit`: skip non-CfnResource nodes, skip excluded
resource types, skip non-taggable types; otherwise collect missing required
tags and, when any are missing, add one error (strict) or warning (lenient)
naming them all. `none` models returning without adding a diagnostic. -/
def visit (a : DocumentationAspectProps) (node : CNode) : Option Diagnostic :=
  if !node.isCfnResource then
    none
  else if a.excludeResourceTypes.contains node.cfnResourceType then
    none
  else if nonTaggableResources.contains node.cfnResourceType then
    none
  else
    let missingTags := missingTagsOf a node
    if missingTags.length > 0 then
      some { severity := if a.strict then Severity.error else Severity.warning,
             message := buildMessage node.path node.cfnResourceType missingTags }
    else
      none

/-- The Tag Policy `evaluate` of the spec, read off `visit`: the per-node
sequence of missing-tag findings, each naming one required key, in the
order the loop produces them; empty on every skipped node. -/
def evaluateTagPolicy (a : DocumentationAspectProps) (node : CNode) : List String :=
  if !node.isCfnResource then
    []
  else if a.excludeResourceTypes.contains node.cfnResourceType then
    []
  else if nonTaggableResources.contains node.cfnResourceType then
    []
  else
    missingTagsOf a node

theorem foldl_missing (tags : Option TagManager) (l acc : List String) :
    l.foldl (fun r rt => if hasTag tags rt then r else r ++ [rt]) acc
      = acc ++ l.filter (fun rt => !hasTag tags rt) := by
  induction l generalizing acc with
  | nil => simp
  | cons x xs ih =>
    cases h : hasTag tags x with
    | true => simp [List.foldl_cons, List.filter_cons, h, ih]
    | false => simp [List.foldl_cons, List.filter_cons, h, ih]

theorem missingTagsOf_eq_filter (a : DocumentationAspectProps) (node : CNode) :
    missingTagsOf a node
      = a.requiredTags.filter (fun rt => !hasTag (getResourceTags node) rt) := by
  simpa using foldl_missing (getResourceTags node) a.requiredTags []

theorem evaluate_eq_filter (a : DocumentationAspectProps) (node : CNode)
    (h1 : node.isCfnResource = true)
    (h2 : a.excludeResourceTypes.contains node.cfnResourceType = false)
    (h3 : nonTaggableResources.contains node.cfnResourceType = false) :
    evaluateTagPolicy a node
      = a.requiredTags.filter (fun rt => !hasTag (getResourceTags node) rt) := by
  have h2m : node.cfnResourceType ∉ a.excludeResourceTypes := by simpa using h2
  have h3m : node.cfnResourceType ∉ nonTaggableResources := by simpa using h3
  simp [evaluateTagPolicy, h1, h2m, h3m, missingTagsOf_eq_filter]

/-- Concrete configuration used by witnesses: two required tags, lenient,
no exclusions. -/
def wProps : DocumentationAspectProps :=
  { requiredTags := ["Owner", "Purpose"], strict := false, excludeResourceTypes := [] }

/-- Concrete bucket node carrying only the Owner tag. -/
def wBucket : CNode :=
  { isCfnResource := true, cfnResourceType := "AWS::S3::Bucket",
    path := "Stack/Bucket", tags := some { tags := some [("Owner", "team-x")] } }

/-- Concrete non-CfnResource construct. -/
def wConstruct : CNode :=
  { isCfnResource := false, cfnResourceType := "", path := "Stack/Helper", tags := none }

/-- Concrete non-taggable output node with an empty tag map. -/
def wOutput : CNode :=
  { isCfnResource := true, cfnResourceType := "AWS::CloudFormation::Output",
    path := "Stack/Out", tags := none }

/-- Concrete node whose tag manager is absent. -/
def wNoManager : CNode :=
  { isCfnResource := true, cfnResourceType := "AWS::DynamoDB::Table",
    path := "Stack/Table", tags := none }

/-- Concrete node whose internal tags field is falsy. -/
def wFalsyField : CNode :=
  { isCfnResource := true, cfnResourceType := "AWS::Lambda::Function",
    path := "Stack/Fn", tags := some { tags := none } }

/-- Concrete node carrying Owner with an empty string value. -/
def wEmptyValue : CNode :=
  { isCfnResource := true, cfnResourceType := "AWS::S3::Bucket",
    path := "Stack/EmptyVal", tags := some { tags := some [("Owner", "")] } }

/-- Claim C1: for every taggable, non-excluded CfnResource node, each
configured required tag key absent from the node tag map (exact,
case-sensitive key match) produces exactly one finding naming that key
(exactly one per configured occurrence; exactly one when the configuration
is duplicate-free), a present key produces none, and the findings are
ordered by the required-tag configuration order. -/
theorem C1_missing_tag_findings (a : DocumentationAspectProps) (node : CNode)
    (h1 : node.isCfnResource = true)
    (h2 : a.excludeResourceTypes.contains node.cfnResourceType = false)
    (h3 : nonTaggableResources.contains node.cfnResourceType = false) :
    (∀ k, k ∈ evaluateTagPolicy a node ↔
        k ∈ a.requiredTags ∧ hasTag (getResourceTags node) k = false) ∧
    (∀ k, hasTag (getResourceTags node) k = false →
        (evaluateTagPolicy a node).count k = a.requiredTags.count k) ∧
    (a.requiredTags.Nodup → ∀ k, k ∈ a.requiredTags →
        hasTag (getResourceTags node) k = false →
        (evaluateTagPolicy a node).count k = 1) ∧
    List.Sublist (evaluateTagPolicy a node) a.requiredTags := by
  have heq := evaluate_eq_filter a node h1 h2 h3
  have hcount : ∀ k, hasTag (getResourceTags node) k = false →
      (evaluateTagPolicy a node).count k = a.requiredTags.count k := by
    intro k hk
    rw [heq]
    exact List.count_filter (by simp [hk])
  refine ⟨?_, hcount, ?_, ?_⟩
  · intro k
    rw [heq]
    simp [List.mem_filter]
  · intro hnd k hkmem hk
    rw [hcount k hk]
    exact List.count_eq_one_of_mem hnd hkmem
  · rw [heq]
    exact List.filter_sublist a.requiredTags

/-- Witness for C1 at the concrete bucket node: the missing Purpose key
yields exactly one finding and the present Owner key yields none. -/
theorem C1_witness :
    (evaluateTagPolicy wProps wBucket).count "Purpose" = 1 ∧
    "Owner" ∉ evaluateTagPolicy wProps wBucket :=
  ⟨(C1_missing_tag_findings wProps wBucket rfl (by decide) (by decide)).2.2.1
      (by decide) "Purpose" (by decide) (by decide),
   fun hmem => by
    have h := ((C1_missing_tag_findings wProps wBucket rfl (by decide)
        (by decide)).1 "Owner").mp hmem
    exact absurd h.2 (by decide)⟩

/-- Claim C3: a node whose type is non-taggable, or whose type is in the
exclusion set, yields no finding and no diagnostic at all, whatever its
tag map and the configured required tags. -/
theorem C3_scope_exclusion (a : DocumentationAspectProps) (node : CNode)
    (h : nonTaggableResources.contains node.cfnResourceType = true ∨
         a.excludeResourceTypes.contains node.cfnResourceType = true) :
    evaluateTagPolicy a node = [] ∧ visit a node = none := by
  cases hcfn : node.isCfnResource with
  | false => simp [evaluateTagPolicy, visit, hcfn]
  | true =>
    cases h with
    | inl ht =>
      have htm : node.cfnResourceType ∈ nonTaggableResources := by simpa using ht
      cases hexc : a.excludeResourceTypes.contains node.cfnResourceType with
      | true =>
        have hem : node.cfnResourceType ∈ a.excludeResourceTypes := by simpa using hexc
        simp [evaluateTagPolicy, visit, hcfn, hem]
      | false =>
        have hem : node.cfnResourceType ∉ a.excludeResourceTypes := by simpa using hexc
        simp [evaluateTagPolicy, visit, hcfn, hem, htm]
    | inr hexc =>
      have hem : node.cfnResourceType ∈ a.excludeResourceTypes := by simpa using hexc
      simp [evaluateTagPolicy, visit, hcfn, hem]

/-- Witness for C3 at the concrete output node: taggable is false, the tag
map is empty, two required tags are configured, yet no finding is produced. -/
theorem C3_witness :
    evaluateTagPolicy wProps wOutput = [] ∧ visit wProps wOutput = none :=
  C3_scope_exclusion wProps wOutput (Or.inl (by decide))

/-- Claim C9: a construct that is not a CfnResource is skipped outright:
no diagnostic is added and no finding produced, whatever the configuration. -/
theorem C9_non_cfn_skipped (a : DocumentationAspectProps) (node : CNode)
    (h : node.isCfnResource = false) :
    visit a node = none ∧ evaluateTagPolicy a node = [] := by
  simp [visit, evaluateTagPolicy, h]

/-- Witness for C9 at the concrete helper construct. -/
theorem C9_witness :
    visit wProps wConstruct = none ∧ evaluateTagPolicy wProps wConstruct = [] :=
  C9_non_cfn_skipped wProps wConstruct rfl

theorem missingTagsOf_strict (a : DocumentationAspectProps) (b : Bool) (node : CNode) :
    missingTagsOf { a with strict := b } node = missingTagsOf a node := rfl

/-- Claim C2: on any fixed node and configuration, the strict and lenient
runs agree on the message and differ only in severity: the strict run
reclassifies every lenient diagnostic as Error, the lenient run emits only
Warning, the strict run only Error (the Tag Policy has no forceError
finding, so the clause exempting those is vacuous here). -/
theorem C2_strict_vs_lenient (a : DocumentationAspectProps) (node : CNode) :
    visit { a with strict := true } node
      = Option.map (fun d => { severity := Severity.error, message := d.message })
          (visit { a with strict := false } node) ∧
    (visit { a with strict := false } node).all
        (fun d => d.severity == Severity.warning) = true ∧
    (visit { a with strict := true } node).all
        (fun d => d.severity == Severity.error) = true := by
  cases hcfn : node.isCfnResource with
  | false => simp [visit, hcfn]
  | true =>
    cases hexc : a.excludeResourceTypes.contains node.cfnResourceType with
    | true =>
      have hem : node.cfnResourceType ∈ a.excludeResourceTypes := by simpa using hexc
      simp [visit, hcfn, hem]
    | false =>
      have hem : node.cfnResourceType ∉ a.excludeResourceTypes := by simpa using hexc
      cases htag : nonTaggableResources.contains node.cfnResourceType with
      | true =>
        have htm : node.cfnResourceType ∈ nonTaggableResources := by simpa using htag
        simp [visit, hcfn, hem, htm]
      | false =>
        have htm : node.cfnResourceType ∉ nonTaggableResources := by simpa using htag
        by_cases hm : (missingTagsOf a node).length > 0
        · simp [visit, hcfn, hem, htm, missingTagsOf_strict, hm]
        · simp [visit, hcfn, hem, htm, missingTagsOf_strict, hm]

/-- Claim C4: a tag key present in the tag record, even with an empty
string value, counts as present — `hasTag` is exactly key membership, so no
missing-tag finding is produced for that key. -/
theorem C4_empty_value_counts_present (a : DocumentationAspectProps) (node : CNode)
    (field : List (String × String)) (k : String)
    (hres : getResourceTags node = some { tags := some field })
    (hk : (k, "") ∈ field) :
    hasTag (getResourceTags node) k = true ∧
    k ∉ evaluateTagPolicy a node ∧
    (∀ k2, hasTag (getResourceTags node) k2 = true ↔ k2 ∈ field.map Prod.fst) := by
  have hiff : ∀ k2, hasTag (getResourceTags node) k2 = true ↔ k2 ∈ field.map Prod.fst := by
    intro k2
    rw [hres]
    simp [hasTag]
  have hmem : k ∈ field.map Prod.fst := List.mem_map_of_mem Prod.fst hk
  have htrue := (hiff k).mpr hmem
  refine ⟨htrue, ?_, hiff⟩
  intro hin
  cases hcfn : node.isCfnResource with
  | false => simp [evaluateTagPolicy, hcfn] at hin
  | true =>
    cases hexc : a.excludeResourceTypes.contains node.cfnResourceType with
    | true =>
      have hem : node.cfnResourceType ∈ a.excludeResourceTypes := by simpa using hexc
      simp [evaluateTagPolicy, hcfn, hem] at hin
    | false =>
      cases htag : nonTaggableResources.contains node.cfnResourceType with
      | true =>
        have hem : node.cfnResourceType ∉ a.excludeResourceTypes := by simpa using hexc
        have htm : node.cfnResourceType ∈ nonTaggableResources := by simpa using htag
        simp [evaluateTagPolicy, hcfn, hem, htm] at hin
      | false =>
        rw [evaluate_eq_filter a node hcfn hexc htag, List.mem_filter] at hin
        simp [htrue] at hin

/-- Witness for C4 at the concrete node whose Owner tag has an empty value. -/
theorem C4_witness :
    hasTag (getResourceTags wEmptyValue) "Owner" = true ∧
    "Owner" ∉ evaluateTagPolicy wProps wEmptyValue :=
  ⟨(C4_empty_value_counts_present wProps wEmptyValue [("Owner", "")] "Owner"
      rfl (by decide)).1,
   (C4_empty_value_counts_present wProps wEmptyValue [("Owner", "")] "Owner"
      rfl (by decide)).2.1⟩

/-- Claim C10: when the tag manager is absent or its internal tags field is
falsy, `hasTag` totally returns false, so on a taggable, non-excluded
resource every configured required tag is reported missing. -/
theorem C10_absent_manager_all_missing (a : DocumentationAspectProps) (node : CNode)
    (h1 : node.isCfnResource = true)
    (h2 : a.excludeResourceTypes.contains node.cfnResourceType = false)
    (h3 : nonTaggableResources.contains node.cfnResourceType = false)
    (h4 : node.tags = none ∨ node.tags = some { tags := none }) :
    (∀ k, hasTag (getResourceTags node) k = false) ∧
    evaluateTagPolicy a node = a.requiredTags := by
  have hfalse : ∀ k, hasTag (getResourceTags node) k = false := by
    intro k
    cases h4 with
    | inl h => simp [hasTag, getResourceTags, h]
    | inr h => simp [hasTag, getResourceTags, h]
  refine ⟨hfalse, ?_⟩
  rw [evaluate_eq_filter a node h1 h2 h3, List.filter_eq_self]
  intro x _
  simp [hfalse x]

/-- Witness for C10 at the concrete nodes with an absent manager and a
falsy internal tags field: both required tags come back missing. -/
theorem C10_witness :
    evaluateTagPolicy wProps wNoManager = ["Owner", "Purpose"] ∧
    evaluateTagPolicy wProps wFalsyField = ["Owner", "Purpose"] :=
  ⟨(C10_absent_manager_all_missing wProps wNoManager rfl (by decide) (by decide)
      (Or.inl rfl)).2,
   (C10_absent_manager_all_missing wProps wFalsyField rfl (by decide) (by decide)
      (Or.inr rfl)).2⟩

/-- A suppression record: rule id, optional exact path, justification.
Shape taken from the suppression records the source passes to
`NagSuppressions.addStackSuppressions` together with the optional path of
the spec's Suppression Registry. -/
structure Suppression where
  ruleId : String
  path : Option String
  reason : String
deriving DecidableEq, Repr

/-- A raw finding routed through suppression filtering. -/
structure Finding where
  ruleId : String
  path : String
  message : String
deriving DecidableEq, Repr

/-- Which kind of suppression matched a finding. -/
inductive MatchKind where
  | nodeSpecific
  | broad
deriving DecidableEq, Repr

/-- Modelled from the spec: the suppression-matching step of the Aspect
Engine. The source only registers suppressions (the matching itself lives
in the external cdk-nag library, outside this repository); per the spec a
node-specific suppression (rule id plus exact path match) takes precedence
over a global one (rule id, no path). -/
def matchSuppression (sups : List Suppression) (f : Finding) :
    Option (Suppression × MatchKind) :=
  match sups.find? (fun s => s.ruleId == f.ruleId && s.path == some f.path) with
  | some s => some (s, MatchKind.nodeSpecific)
  | none =>
    match sups.find? (fun s => s.ruleId == f.ruleId && s.path == none) with
    | some s => some (s, MatchKind.broad)
    | none => none

/-- Result of routing raw findings through the Suppression Registry:
visible findings, the suppressed count, and the audit trail recording which
suppression matched each dropped finding. -/
structure FilterResult where
  visible : List Finding
  suppressedCount : Nat
  audit : List (Finding × Suppression × MatchKind)
deriving DecidableEq, Repr

/-- Modelled from the spec: suppression filtering of the Aspect Engine.
A matched finding is dropped from the visible report, the suppressed count
is incremented, and the match is recorded in the audit trail. -/
def applySuppressions (sups : List Suppression) (findings : List Finding) :
    FilterResult :=
  findings.foldl
    (fun r f =>
      match matchSuppression sups f with
      | some (s, k) =>
        { r with suppressedCount := r.suppressedCount + 1,
                 audit := r.audit ++ [(f, s, k)] }
      | none => { r with visible := r.visible ++ [f] })
    { visible := [], suppressedCount := 0, audit := [] }

/-- Engine error raised before any traversal. -/
inductive EngineError where
  | configurationError
deriving DecidableEq, Repr

/-- Modelled from the spec: load-time validation of suppression records;
an empty reason is rejected with a ConfigurationError. The source forwards
records to the external cdk-nag library, whose validation is outside this
repository. -/
def validateSuppressions (sups : List Suppression) :
    Except EngineError (List Suppression) :=
  if sups.any (fun s => s.reason == "") then
    Except.error EngineError.configurationError
  else
    Except.ok sups

/-- Modelled from the spec: the run pipeline validates the suppression
configuration before any finding is filtered or any traversal output
produced. -/
def runEngine (sups : List Suppression) (rawFindings : List Finding) :
    Except EngineError FilterResult :=
  match validateSuppressions sups with
  | Except.error e => Except.error e
  | Except.ok ok => Except.ok (applySuppressions ok rawFindings)

/-- Claim C5: when a finding matches both a node-specific suppression
(same rule id, exact path) and a global suppression (same rule id, no
path), the node-specific one is the match recorded in the audit trail, the
finding is dropped from the visible report, and the suppressed count is
incremented. -/
theorem C5_node_specific_precedence (sups : List Suppression) (f : Finding)
    (s g : Suppression)
    (hs : s ∈ sups) (hsr : s.ruleId = f.ruleId) (hsp : s.path = some f.path)
    (_hg : g ∈ sups) (_hgr : g.ruleId = f.ruleId) (_hgp : g.path = none) :
    ∃ m, m.ruleId = f.ruleId ∧ m.path = some f.path ∧
      matchSuppression sups f = some (m, MatchKind.nodeSpecific) ∧
      (applySuppressions sups [f]).visible = [] ∧
      (applySuppressions sups [f]).suppressedCount = 1 ∧
      (applySuppressions sups [f]).audit = [(f, m, MatchKind.nodeSpecific)] := by
  have hsome : (sups.find?
      (fun x => x.ruleId == f.ruleId && x.path == some f.path)).isSome := by
    rw [List.find?_isSome]
    exact ⟨s, hs, by simp [hsr, hsp]⟩
  obtain ⟨m, hm⟩ := Option.isSome_iff_exists.mp hsome
  have hmp := List.find?_some hm
  simp only [Bool.and_eq_true, beq_iff_eq] at hmp
  have hmatch : matchSuppression sups f = some (m, MatchKind.nodeSpecific) := by
    simp [matchSuppression, hm]
  refine ⟨m, hmp.1, hmp.2, hmatch, ?_, ?_, ?_⟩ <;>
    simp [applySuppressions, hmatch]

/-- Witness for C5: one global and one node-specific suppression for the
same rule; the audit trail attributes the drop to the node-specific one. -/
theorem C5_witness :
    ∃ m, m.ruleId = "R" ∧ m.path = some "/a/b" ∧
      matchSuppression
        [{ ruleId := "R", path := none, reason := "global" },
         { ruleId := "R", path := some "/a/b", reason := "specific" }]
        { ruleId := "R", path := "/a/b", message := "msg" }
        = some (m, MatchKind.nodeSpecific) ∧
      (applySuppressions
        [{ ruleId := "R", path := none, reason := "global" },
         { ruleId := "R", path := some "/a/b", reason := "specific" }]
        [{ ruleId := "R", path := "/a/b", message := "msg" }]).visible = [] ∧
      (applySuppressions
        [{ ruleId := "R", path := none, reason := "global" },
         { ruleId := "R", path := some "/a/b", reason := "specific" }]
        [{ ruleId := "R", path := "/a/b", message := "msg" }]).suppressedCount = 1 ∧
      (applySuppressions
        [{ ruleId := "R", path := none, reason := "global" },
         { ruleId := "R", path := some "/a/b", reason := "specific" }]
        [{ ruleId := "R", path := "/a/b", message := "msg" }]).audit
        = [({ ruleId := "R", path := "/a/b", message := "msg" },
            m, MatchKind.nodeSpecific)] :=
  C5_node_specific_precedence
    [{ ruleId := "R", path := none, reason := "global" },
     { ruleId := "R", path := some "/a/b", reason := "specific" }]
    { ruleId := "R", path := "/a/b", message := "msg" }
    { ruleId := "R", path := some "/a/b", reason := "specific" }
    { ruleId := "R", path := none, reason := "global" }
    (by decide) rfl rfl (by decide) rfl rfl

/-- Claim C6: a suppression record with an empty reason is rejected at load
time with a ConfigurationError, before any finding is filtered: the run
pipeline returns the error and no report. -/
theorem C6_empty_reason_rejected (sups : List Suppression)
    (rawFindings : List Finding)
    (h : ∃ s ∈ sups, s.reason = "") :
    runEngine sups rawFindings = Except.error EngineError.configurationError := by
  have hany : sups.any (fun s => s.reason == "") = true := by
    rw [List.any_eq_true]
    obtain ⟨s, hs, hr⟩ := h
    exact ⟨s, hs, by simp [hr]⟩
  simp [runEngine, validateSuppressions, hany]

/-- Witness for C6: a single suppression with an empty reason makes the
run pipeline fail with a ConfigurationError. -/
theorem C6_witness :
    runEngine [{ ruleId := "R", path := none, reason := "" }]
        [{ ruleId := "R", path := "/a", message := "m" }]
      = Except.error EngineError.configurationError :=
  C6_empty_reason_rejected
    [{ ruleId := "R", path := none, reason := "" }]
    [{ ruleId := "R", path := "/a", message := "m" }]
    ⟨{ ruleId := "R", path := none, reason := "" }, by decide, rfl⟩

/-- `ComplianceAspectProps` of the source: optional strict flag and
optional suppression list. -/
structure ComplianceAspectProps where
  strict : Option Bool
  suppressions : Option (List Suppression)
deriving DecidableEq, Repr

/-- The options the `ComplianceAspect` constructor passes to
`AwsSolutionsChecks`. In cdk-nag, `verbose` prints full finding messages
and `logIgnores` prints a line for every suppressed/ignored finding. -/
structure AwsSolutionsChecksProps where
  verbose : Bool
  logIgnores : Bool
deriving DecidableEq, Repr

/-- The `ComplianceAspect` constructor's configuration of
`AwsSolutionsChecks`: `verbose: true, logIgnores: props?.strict ?? false`. -/
def complianceAspectConfig (props : Option ComplianceAspectProps) :
    AwsSolutionsChecksProps :=
  { verbose := true,
    logIgnores := (props.bind (fun p => p.strict)).getD false }

/-- Counterexample to claim C7: flipping strict changes `logIgnores`, the
flag that controls whether suppressed/ignored findings are logged, so
setting strict does change which suppressed findings are logged. -/
theorem C7_counterexample :
    (complianceAspectConfig
        (some { strict := some true, suppressions := none })).logIgnores
      ≠ (complianceAspectConfig
        (some { strict := some false, suppressions := none })).logIgnores := by
  decide

/-- Claim C7 as amended: in `ComplianceAspect` the verbose flag is
hard-coded to true (so strict never changes it), but the strict flag is
forwarded verbatim as cdk-nag's `logIgnores` option, so strictness also
controls the logging of suppressed/ignored findings — the two settings are
coupled, not orthogonal. -/
theorem C7_strict_drives_ignore_logging (b : Bool) (sups : Option (List Suppression)) :
    (complianceAspectConfig (some { strict := some b, suppressions := sups })).verbose
      = (complianceAspectConfig
          (some { strict := some (!b), suppressions := sups })).verbose ∧
    (complianceAspectConfig
        (some { strict := some b, suppressions := sups })).logIgnores = b ∧
    (complianceAspectConfig none).logIgnores = false := by
  cases b <;> simp [complianceAspectConfig]

/-- A construct tree: a node and its ordered children. -/
inductive CTree where
  | node : CNode → List CTree → CTree

mutual

/-- Deterministic pre-order traversal: the node, then the children in
declaration order. -/
def preorder : CTree → List CNode
  | CTree.node n cs => n :: preorderForest cs

/-- Pre-order traversal of a forest, left to right. -/
def preorderForest : List CTree → List CNode
  | [] => []
  | t :: ts => preorder t ++ preorderForest ts

end

/-- One full run of the aspect pipeline over a tree: visit every node in
pre-order and collect the diagnostics that `visit` adds. -/
def runTree (a : DocumentationAspectProps) (t : CTree) : List Diagnostic :=
  (preorder t).filterMap (visit a)

/-- A completed traversal of a node sequence: relates the visited nodes to
the diagnostics the run accumulated, one step per node. -/
inductive VisitRel (a : DocumentationAspectProps) : List CNode → List Diagnostic → Prop where
  | nil : VisitRel a [] []
  | skip {n : CNode} {ns : List CNode} {ds : List Diagnostic} :
      visit a n = none → VisitRel a ns ds → VisitRel a (n :: ns) ds
  | emit {n : CNode} {ns : List CNode} {d : Diagnostic} {ds : List Diagnostic} :
      visit a n = some d → VisitRel a ns ds → VisitRel a (n :: ns) (d :: ds)

theorem visitRel_det (a : DocumentationAspectProps) {ns : List CNode}
    {r1 r2 : List Diagnostic} (h1 : VisitRel a ns r1) :
    VisitRel a ns r2 → r1 = r2 := by
  induction h1 generalizing r2 with
  | nil =>
    intro h2
    cases h2
    rfl
  | skip hv ht ih =>
    intro h2
    cases h2 with
    | skip hv2 ht2 => exact ih ht2
    | emit hv2 ht2 =>
      rw [hv] at hv2
      exact absurd hv2 (by simp)
  | emit hv ht ih =>
    intro h2
    cases h2 with
    | skip hv2 ht2 =>
      rw [hv] at hv2
      exact absurd hv2 (by simp)
    | emit hv2 ht2 =>
      rw [hv] at hv2
      injection hv2 with he
      rw [he, ih ht2]

theorem visitRel_run (a : DocumentationAspectProps) (ns : List CNode) :
    VisitRel a ns (ns.filterMap (visit a)) := by
  induction ns with
  | nil => exact VisitRel.nil
  | cons n ns ih =>
    cases hv : visit a n with
    | none => simpa [List.filterMap_cons, hv] using VisitRel.skip hv ih
    | some d => simpa [List.filterMap_cons, hv] using VisitRel.emit hv ih

/-- Claim C8: for a fixed tree and configuration the pipeline is
deterministic — any two completed traversals of the tree's pre-order node
sequence accumulate the same diagnostics, in the same order, and that
result is exactly the one `runTree` computes. -/
theorem C8_run_deterministic (a : DocumentationAspectProps) (t : CTree)
    (r1 r2 : List Diagnostic)
    (h1 : VisitRel a (preorder t) r1) (h2 : VisitRel a (preorder t) r2) :
    r1 = r2 ∧ r1 = runTree a t :=
  ⟨visitRel_det a h1 h2, visitRel_det a h1 (visitRel_run a (preorder t))⟩

/-- Concrete two-node tree for the C8 witness: a skipped helper construct
with one bucket child missing the Purpose tag. -/
def wTree : CTree := CTree.node wConstruct [CTree.node wBucket []]

/-- The diagnostic the lenient run adds at the bucket node of `wTree`. -/
def wDiag : Diagnostic :=
  { severity := Severity.warning,
    message := buildMessage "Stack/Bucket" "AWS::S3::Bucket" ["Purpose"] }

theorem wTree_visitRel : VisitRel wProps (preorder wTree) [wDiag] := by
  have hp : preorder wTree = [wConstruct, wBucket] := rfl
  rw [hp]
  exact VisitRel.skip (by decide) (VisitRel.emit (by decide) VisitRel.nil)

/-- Witness for C8: two completed traversals of the concrete tree agree
and equal the computed run. -/
theorem C8_witness : ([wDiag] = [wDiag]) ∧ [wDiag] = runTree wProps wTree :=
  C8_run_deterministic wProps wTree [wDiag] [wDiag] wTree_visitRel wTree_visitRel
